import Mathlib

/-!
Verification of the fresh-i18n route-scoped translation core.

Strings from the source are embedded as `List Char` (JavaScript strings are
sequences of code units; all data in scope is ASCII, so the embedding is
byte-for-byte faithful).  The JavaScript operations map as follows:
`s.startsWith(p)` is `p.isPrefixOf s`, `s.endsWith("/")` is
`s.getLast? = some '/'`, `s.slice(0, -1)` is `s.dropLast`, and
`pattern.substring(0, pattern.indexOf("*"))` — only evaluated under the guard
`pattern.includes("*")` — is `pattern.takeWhile (fun c => !(c == '*'))`, the
text before the first occurrence of the marker.  A flat catalog
(`Record<string, unknown>`) is an association list `List (List Char × α)` in
insertion order, matching the `Object.entries` iteration order used by the
source.
-/

/-- Embeds `normalizeUrlPath` from the sources: returns the path unchanged when
it is exactly `/` or does not end in `/`; otherwise drops the final slash. -/
def normalizeUrlPath (path : List Char) : List Char :=
  if path = ['/'] ∨ ¬ (path.getLast? = some '/') then path
  else path.dropLast

/-- Embeds `matchRoutePattern` from the sources: an exact string match succeeds;
otherwise a pattern containing the wildcard marker matches when the text before
the first marker is a prefix of the path; otherwise the match fails. -/
def matchRoutePattern (urlPath pattern : List Char) : Bool :=
  if urlPath = pattern then true
  else if pattern.contains '*' then
    if !((pattern.takeWhile (fun c => !(c == '*'))).isPrefixOf urlPath) then false
    else true
  else false

/-- Embeds the skip-injection sentinel string `"__SKIP_INJECTION__"`. -/
def SKIP_INJECTION : List Char := "__SKIP_INJECTION__".data

/-- Embeds the per-entry test inside `extractNamespaces`:
`key === ns || key.startsWith(ns + ".")`. -/
def nsMatches (key ns : List Char) : Bool :=
  key == ns || (ns ++ ['.']).isPrefixOf key

/-- Embeds `extractNamespaces` from the sources: the singleton skip-injection
collection yields the empty catalog, the empty collection yields the whole
catalog, and otherwise the entries whose key matches some namespace (exactly or
as a dotted prefix) are kept in catalog order. -/
def extractNamespaces {α : Type} (allTranslations : List (List Char × α))
    (namespaces : List (List Char)) : List (List Char × α) :=
  if namespaces = [SKIP_INJECTION] then []
  else if namespaces = [] then allTranslations
  else allTranslations.filter (fun kv => namespaces.any (fun ns => nsMatches kv.1 ns))

/-- Modelled from the spec: the Route Matcher step of `plugin.ts` that applies
`ignoreTrailingSlash` is not among the sources.  Per the spec, when the option
is enabled the pattern's literal (non-wildcard) portion is stripped of one
trailing slash by the same normalization applied to paths, while the wildcard
tail is kept. -/
def normalizeRoutePattern (pattern : List Char) : List Char :=
  if pattern.contains '*' then
    normalizeUrlPath (pattern.takeWhile (fun c => !(c == '*')))
      ++ pattern.dropWhile (fun c => !(c == '*'))
  else normalizeUrlPath pattern

/-- Modelled from the spec: the composition of trailing-slash normalization and
pattern matching performed by `plugin.ts`, which is not among the sources.
When `ignoreTrailingSlash` is enabled, both the request path and the pattern's
literal portion are normalized before `matchRoutePattern` runs. -/
def matchRouteWithConfig (urlPath pattern : List Char)
    (ignoreTrailingSlash : Bool) : Bool :=
  if ignoreTrailingSlash then
    matchRoutePattern (normalizeUrlPath urlPath) (normalizeRoutePattern pattern)
  else matchRoutePattern urlPath pattern

/-- Error raised when a route pattern places the wildcard marker anywhere but
the final character of the pattern string. -/
inductive RoutePatternError where
| invalidRoutePattern : RoutePatternError

/-- Modelled from the spec: configuration-time validation of route patterns is
not among the sources.  A pattern is rejected with `InvalidRoutePattern`
exactly when a wildcard marker occurs before the final character. -/
def validateRoutePattern (pattern : List Char) : Except RoutePatternError Unit :=
  if '*' ∈ pattern.dropLast then Except.error RoutePatternError.invalidRoutePattern
  else Except.ok ()

/-- Modelled from the spec: the per-request translation configuration consumed
by the Translator Factory (`translator.ts` is not among the sources). -/
structure TranslationConfig where
  locale : List Char
  fallbackKeys : List (List Char)
  fallbackShowIndicator : Bool
  indicatorFormat : List Char → List Char → List Char
  shouldShowIndicator : List Char → List Char → Bool
  applyOnDev : Bool
  isProduction : Bool
  showKeysInProd : Bool

/-- Modelled from the spec: the Translator Factory lookup policy
(`translator.ts` is not among the sources).  Returns the rendered text paired
with the number of warnings emitted to the collaborating logger.  A found key
returns its text, with the fallback indicator appended when configured; a
missing key returns the bracketed key with one warning in development, the bare
key in production with `showKeysInProd`, and the empty text silently
otherwise. -/
def translateKey (catalog : List (List Char × List Char))
    (cfg : TranslationConfig) (key : List Char) : List Char × Nat :=
  match catalog.lookup key with
  | some text =>
    if cfg.fallbackKeys.contains key && cfg.fallbackShowIndicator
        && (cfg.isProduction || cfg.applyOnDev)
        && cfg.shouldShowIndicator text cfg.locale then
      (cfg.indicatorFormat text cfg.locale, 0)
    else (text, 0)
  | none =>
    if !cfg.isProduction then (['['] ++ key ++ [']'], 1)
    else if cfg.showKeysInProd then (key, 0)
    else ([], 0)

/-- Sample development-mode configuration used to instantiate the translator
theorems on concrete inputs. -/
def exampleDevConfig : TranslationConfig where
  locale := "en".data
  fallbackKeys := []
  fallbackShowIndicator := false
  indicatorFormat := fun text _ => text
  shouldShowIndicator := fun _ _ => false
  applyOnDev := false
  isProduction := false
  showKeysInProd := false

/-- Sample production-mode configuration with `showKeysInProd` disabled. -/
def exampleProdConfig : TranslationConfig where
  locale := "en".data
  fallbackKeys := []
  fallbackShowIndicator := false
  indicatorFormat := fun text _ => text
  shouldShowIndicator := fun _ _ => false
  applyOnDev := false
  isProduction := true
  showKeysInProd := false

theorem takeWhile_isPrefixOf (p : Char → Bool) (l : List Char) :
    (l.takeWhile p).isPrefixOf l = true := by
  rw [List.isPrefixOf_iff_prefix]
  exact List.takeWhile_prefix p

/-- C1: for every path and every pattern containing the wildcard marker,
`matchRoutePattern` returns true exactly when the path starts with the literal
text preceding the marker; in particular `/user*` matches `/users/5`, and the
root wildcard `/*` matches every path beginning with `/`, including `/`
itself. -/
theorem matchRoutePattern_wildcard :
    (∀ urlPath pattern : List Char, pattern.contains '*' = true →
      (matchRoutePattern urlPath pattern = true ↔
        (pattern.takeWhile (fun c => !(c == '*'))).isPrefixOf urlPath = true))
    ∧ matchRoutePattern "/users/5".data "/user*".data = true
    ∧ (∀ urlPath : List Char, (['/'].isPrefixOf urlPath) = true →
        matchRoutePattern urlPath "/*".data = true)
    ∧ matchRoutePattern "/".data "/*".data = true := by
  have main : ∀ urlPath pattern : List Char, pattern.contains '*' = true →
      (matchRoutePattern urlPath pattern = true ↔
        (pattern.takeWhile (fun c => !(c == '*'))).isPrefixOf urlPath = true) := by
    intro urlPath pattern hstar
    unfold matchRoutePattern
    by_cases heq : urlPath = pattern
    · subst heq
      simp [takeWhile_isPrefixOf]
    · rw [if_neg heq, if_pos hstar]
      cases hpre : (pattern.takeWhile (fun c => !(c == '*'))).isPrefixOf urlPath <;>
        simp [hpre]
  refine ⟨main, by decide, ?_, by decide⟩
  intro urlPath hroot
  rw [main urlPath "/*".data (by decide)]
  exact hroot

/-- Closed instance of the C1 theorem at concrete inputs. -/
theorem matchRoutePattern_wildcard_witness :
    "/indicators/*".data.contains '*' = true
    ∧ (matchRoutePattern "/indicators/123".data "/indicators/*".data = true ↔
        ("/indicators/*".data.takeWhile (fun c => !(c == '*'))).isPrefixOf
          "/indicators/123".data = true)
    ∧ ['/'].isPrefixOf "/anything".data = true
    ∧ matchRoutePattern "/anything".data "/*".data = true :=
  ⟨by decide, matchRoutePattern_wildcard.1 _ _ (by decide), by decide,
    matchRoutePattern_wildcard.2.2.1 _ (by decide)⟩

/-- C4: for every path and every pattern without the wildcard marker,
`matchRoutePattern` returns true exactly when the path equals the pattern
string. -/
theorem matchRoutePattern_exact :
    ∀ urlPath pattern : List Char, pattern.contains '*' = false →
      (matchRoutePattern urlPath pattern = true ↔ urlPath = pattern) := by
  intro urlPath pattern hstar
  unfold matchRoutePattern
  by_cases heq : urlPath = pattern
  · simp [heq]
  · rw [if_neg heq, if_neg (by rw [hstar]; simp)]
    simp [heq]

/-- Closed instance of the C4 theorem at concrete inputs: pattern `/indicators`
does not match `/indicators/123`, and pattern `/` matches `/`. -/
theorem matchRoutePattern_exact_witness :
    "/indicators".data.contains '*' = false
    ∧ (matchRoutePattern "/indicators/123".data "/indicators".data = true ↔
        "/indicators/123".data = "/indicators".data)
    ∧ (matchRoutePattern "/".data "/".data = true ↔ "/".data = "/".data) :=
  ⟨by decide, matchRoutePattern_exact _ _ (by decide),
    matchRoutePattern_exact _ _ (by decide)⟩

/-- C8: `normalizeUrlPath` removes exactly one trailing slash from every path
that ends in `/` and is not exactly `/`; the root path and paths not ending in
`/` are returned unchanged. -/
theorem normalizeUrlPath_spec :
    (∀ path : List Char, path.getLast? = some '/' → path ≠ ['/'] →
      normalizeUrlPath path ++ ['/'] = path)
    ∧ normalizeUrlPath ['/'] = ['/']
    ∧ (∀ path : List Char, ¬ (path.getLast? = some '/') →
        normalizeUrlPath path = path) := by
  refine ⟨?_, by decide, ?_⟩
  · intro path hlast hroot
    unfold normalizeUrlPath
    rw [if_neg (by simp [hroot, hlast])]
    exact List.dropLast_append_getLast? '/' hlast
  · intro path hlast
    unfold normalizeUrlPath
    rw [if_pos (Or.inr hlast)]

/-- Closed instance of the C8 theorem at concrete inputs. -/
theorem normalizeUrlPath_spec_witness :
    "/indicators/".data.getLast? = some '/'
    ∧ "/indicators/".data ≠ ['/']
    ∧ normalizeUrlPath "/indicators/".data ++ ['/'] = "/indicators/".data
    ∧ ¬ ("/indicators".data.getLast? = some '/')
    ∧ normalizeUrlPath "/indicators".data = "/indicators".data :=
  ⟨by decide, by decide, normalizeUrlPath_spec.1 _ (by decide) (by decide),
    by decide, normalizeUrlPath_spec.2.2 _ (by decide)⟩

/-- C5: with `ignoreTrailingSlash` enabled, matching first sends the request
path through `normalizeUrlPath` and the pattern's literal portion through the
same stripping, so the paths `/indicators/` and `/indicators` match exactly the
same patterns. -/
theorem ignoreTrailingSlash_same_matches :
    (∀ urlPath pattern : List Char,
      matchRouteWithConfig urlPath pattern true =
        matchRoutePattern (normalizeUrlPath urlPath) (normalizeRoutePattern pattern))
    ∧ (∀ pattern : List Char,
      matchRouteWithConfig "/indicators/".data pattern true =
        matchRouteWithConfig "/indicators".data pattern true) := by
  constructor
  · intro urlPath pattern
    rfl
  · intro pattern
    unfold matchRouteWithConfig
    have h : normalizeUrlPath "/indicators/".data = normalizeUrlPath "/indicators".data := by
      decide
    rw [if_pos rfl, if_pos rfl, h]

theorem extractNamespaces_eq_filter {α : Type} (catalog : List (List Char × α))
    (namespaces : List (List Char)) (h1 : namespaces ≠ [])
    (h2 : namespaces ≠ [SKIP_INJECTION]) :
    extractNamespaces catalog namespaces =
      catalog.filter (fun kv => namespaces.any (fun ns => nsMatches kv.1 ns)) := by
  unfold extractNamespaces
  rw [if_neg h2, if_neg h1]

theorem extractNamespaces_mem_aux {α : Type} (catalog : List (List Char × α))
    (namespaces : List (List Char)) (h1 : namespaces ≠ [])
    (h2 : namespaces ≠ [SKIP_INJECTION]) (k : List Char) (v : α) :
    (k, v) ∈ extractNamespaces catalog namespaces ↔
      (k, v) ∈ catalog ∧ ∃ ns ∈ namespaces, k = ns ∨ (ns ++ ['.']) <+: k := by
  rw [extractNamespaces_eq_filter catalog namespaces h1 h2, List.mem_filter]
  simp only [List.any_eq_true, nsMatches, Bool.or_eq_true, beq_iff_eq,
    List.isPrefixOf_iff_prefix]

/-- C2: for a non-empty namespace collection other than the skip-marker
singleton, `extractNamespaces` keeps exactly the catalog entries whose key
equals one of the namespace names or starts with a namespace name followed by
`.`; a key that merely extends a namespace name without the dot never
qualifies. -/
theorem extractNamespaces_prefix_exact :
    ∀ {α : Type} (catalog : List (List Char × α)) (namespaces : List (List Char)),
      namespaces ≠ [] → namespaces ≠ [SKIP_INJECTION] →
      ∀ (k : List Char) (v : α),
        ((k, v) ∈ extractNamespaces catalog namespaces ↔
          (k, v) ∈ catalog ∧ ∃ ns ∈ namespaces, k = ns ∨ (ns ++ ['.']) <+: k) := by
  intro α catalog namespaces h1 h2 k v
  exact extractNamespaces_mem_aux catalog namespaces h1 h2 k v

/-- Closed instance of the C2 theorem on the spec's example: `commonExtra` is
not selected by namespace `common` even though it extends it. -/
theorem extractNamespaces_prefix_exact_witness :
    (["common".data] : List (List Char)) ≠ []
    ∧ (["common".data] : List (List Char)) ≠ [SKIP_INJECTION]
    ∧ (("commonExtra".data, "X") ∈ extractNamespaces
        [("common".data, "Root"), ("common.save".data, "Save"), ("commonExtra".data, "X")]
        ["common".data] ↔
      ("commonExtra".data, "X") ∈
        ([("common".data, "Root"), ("common.save".data, "Save"), ("commonExtra".data, "X")]
          : List (List Char × String))
      ∧ ∃ ns ∈ (["common".data] : List (List Char)),
          "commonExtra".data = ns ∨ (ns ++ ['.']) <+: "commonExtra".data) :=
  ⟨by decide, by decide,
    extractNamespaces_prefix_exact _ _ (by decide) (by decide) _ _⟩

/-- C3: the empty namespace collection returns the catalog unchanged, the
skip-marker singleton returns the empty sub-catalog, and on any non-empty
catalog the two results differ. -/
theorem extractNamespaces_sentinels :
    ∀ {α : Type} (catalog : List (List Char × α)),
      extractNamespaces catalog [] = catalog
      ∧ extractNamespaces catalog [SKIP_INJECTION] = []
      ∧ (catalog ≠ [] →
          extractNamespaces catalog [] ≠ extractNamespaces catalog [SKIP_INJECTION]) := by
  intro α catalog
  have hall : extractNamespaces catalog [] = catalog := by
    unfold extractNamespaces
    rw [if_neg (by simp [SKIP_INJECTION]), if_pos rfl]
  have hskip : extractNamespaces catalog [SKIP_INJECTION] = [] := by
    unfold extractNamespaces
    rw [if_pos rfl]
  refine ⟨hall, hskip, ?_⟩
  intro hne
  rw [hall, hskip]
  exact hne

/-- Closed instance of the C3 theorem on a one-entry catalog. -/
theorem extractNamespaces_sentinels_witness :
    ([("common.save".data, "Save")] : List (List Char × String)) ≠ []
    ∧ extractNamespaces [("common.save".data, "Save")] ([] : List (List Char)) ≠
        extractNamespaces [("common.save".data, "Save")] [SKIP_INJECTION] :=
  ⟨by decide, (extractNamespaces_sentinels _).2.2 (by decide)⟩

/-- C9: the skip marker empties the result only as a singleton collection; in
any collection that also holds another name, it is treated as an ordinary
namespace name and the usual exact/dotted-prefix filtering applies to the whole
collection. -/
theorem extractNamespaces_skip_singleton_only :
    ∀ {α : Type} (catalog : List (List Char × α)) (namespaces : List (List Char)),
      extractNamespaces catalog [SKIP_INJECTION] = []
      ∧ (SKIP_INJECTION ∈ namespaces → namespaces ≠ [SKIP_INJECTION] →
          ∀ (k : List Char) (v : α),
            ((k, v) ∈ extractNamespaces catalog namespaces ↔
              (k, v) ∈ catalog ∧
                ∃ ns ∈ namespaces, k = ns ∨ (ns ++ ['.']) <+: k)) := by
  intro α catalog namespaces
  constructor
  · unfold extractNamespaces
    rw [if_pos rfl]
  · intro hmem hne k v
    have h1 : namespaces ≠ [] := by
      intro h
      rw [h] at hmem
      exact List.not_mem_nil SKIP_INJECTION hmem
    exact extractNamespaces_mem_aux catalog namespaces h1 hne k v

/-- Closed instance of the C9 theorem: with the collection
`[__SKIP_INJECTION__, common]` the marker no longer suppresses filtering, and
`common.save` is selected as usual. -/
theorem extractNamespaces_skip_singleton_only_witness :
    SKIP_INJECTION ∈ ([SKIP_INJECTION, "common".data] : List (List Char))
    ∧ ([SKIP_INJECTION, "common".data] : List (List Char)) ≠ [SKIP_INJECTION]
    ∧ (("common.save".data, "Save") ∈ extractNamespaces
        [("common.save".data, "Save")] [SKIP_INJECTION, "common".data] ↔
      ("common.save".data, "Save") ∈
        ([("common.save".data, "Save")] : List (List Char × String))
      ∧ ∃ ns ∈ ([SKIP_INJECTION, "common".data] : List (List Char)),
          "common.save".data = ns ∨ (ns ++ ['.']) <+: "common.save".data) :=
  ⟨by decide, by decide,
    (extractNamespaces_skip_singleton_only _ _).2 (by decide) (by decide) _ _⟩

/-- C10: `extractNamespaces` is idempotent in its catalog argument for every
namespace collection, and its result is always a sublist of the input catalog
(same key-value pairs, values unchanged, in order). -/
theorem extractNamespaces_idempotent_sub :
    ∀ {α : Type} (catalog : List (List Char × α)) (namespaces : List (List Char)),
      extractNamespaces (extractNamespaces catalog namespaces) namespaces =
        extractNamespaces catalog namespaces
      ∧ (extractNamespaces catalog namespaces).Sublist catalog := by
  intro α catalog namespaces
  by_cases h2 : namespaces = [SKIP_INJECTION]
  · subst h2
    have hskip : ∀ c : List (List Char × α),
        extractNamespaces c [SKIP_INJECTION] = [] := by
      intro c
      unfold extractNamespaces
      rw [if_pos rfl]
    simp only [hskip]
    exact ⟨trivial, List.nil_sublist catalog⟩
  · by_cases h1 : namespaces = []
    · subst h1
      have hall : ∀ c : List (List Char × α),
          extractNamespaces c ([] : List (List Char)) = c := by
        intro c
        unfold extractNamespaces
        rw [if_neg (by simp [SKIP_INJECTION]), if_pos rfl]
      rw [hall, hall]
      exact ⟨rfl, List.Sublist.refl catalog⟩
    · rw [extractNamespaces_eq_filter catalog namespaces h1 h2,
        extractNamespaces_eq_filter _ namespaces h1 h2]
      exact ⟨by simp [List.filter_filter], List.filter_sublist catalog⟩

/-- C6: a key absent from the catalog is always handled by a returned value,
never a thrown failure: in development the returned text wraps the key (the key
occurs verbatim inside it) and exactly one warning is emitted; in production
with `showKeysInProd` disabled the returned text is empty and no warning is
emitted. -/
theorem translateKey_missing :
    ∀ (catalog : List (List Char × List Char)) (cfg : TranslationConfig)
      (key : List Char), catalog.lookup key = none →
      (cfg.isProduction = false →
        (∃ pre post, (translateKey catalog cfg key).1 = pre ++ key ++ post)
        ∧ (translateKey catalog cfg key).2 = 1)
      ∧ (cfg.isProduction = true → cfg.showKeysInProd = false →
        (translateKey catalog cfg key).1 = [] ∧ (translateKey catalog cfg key).2 = 0) := by
  intro catalog cfg key hnone
  have hred : translateKey catalog cfg key =
      (if !cfg.isProduction then (['['] ++ key ++ [']'], 1)
       else if cfg.showKeysInProd then (key, 0) else ([], 0)) := by
    unfold translateKey
    rw [hnone]
  constructor
  · intro hdev
    rw [hred, hdev]
    exact ⟨⟨['['], [']'], rfl⟩, rfl⟩
  · intro hprod hshow
    rw [hred, hprod, hshow]
    exact ⟨rfl, rfl⟩

/-- Closed instance of the C6 theorem: looking up `common.missing` in an empty
catalog in development mode and in production mode with `showKeysInProd`
disabled. -/
theorem translateKey_missing_witness :
    ([] : List (List Char × List Char)).lookup "common.missing".data = none
    ∧ exampleDevConfig.isProduction = false
    ∧ ((∃ pre post, (translateKey [] exampleDevConfig "common.missing".data).1 =
          pre ++ "common.missing".data ++ post)
      ∧ (translateKey [] exampleDevConfig "common.missing".data).2 = 1)
    ∧ exampleProdConfig.isProduction = true
    ∧ exampleProdConfig.showKeysInProd = false
    ∧ (translateKey [] exampleProdConfig "common.missing".data).1 = []
    ∧ (translateKey [] exampleProdConfig "common.missing".data).2 = 0 :=
  ⟨rfl, rfl, (translateKey_missing [] exampleDevConfig _ rfl).1 rfl,
    rfl, rfl, ((translateKey_missing [] exampleProdConfig _ rfl).2 rfl rfl).1,
    ((translateKey_missing [] exampleProdConfig _ rfl).2 rfl rfl).2⟩

theorem takeWhile_append_marker (l : List Char) (h : '*' ∉ l) :
    (l ++ ['*']).takeWhile (fun c => !(c == '*')) = l := by
  induction l with
  | nil => simp [List.takeWhile]
  | cons a t ih =>
    simp only [List.mem_cons, not_or] at h
    rw [List.cons_append, List.takeWhile_cons, if_pos (by simp [Ne.symm h.1]), ih h.2]

/-- C7: a pattern whose wildcard marker sits before the final character is
rejected with `InvalidRoutePattern` by configuration-time validation, while a
pattern whose marker is the final character passes validation and matches a
path exactly when the text before the marker is a prefix of the path. -/
theorem validateRoutePattern_spec :
    (∀ pattern : List Char, '*' ∈ pattern.dropLast →
      validateRoutePattern pattern = Except.error RoutePatternError.invalidRoutePattern)
    ∧ (∀ pattern : List Char, '*' ∈ pattern → '*' ∉ pattern.dropLast →
      validateRoutePattern pattern = Except.ok ()
      ∧ ∀ urlPath : List Char,
          matchRoutePattern urlPath pattern = pattern.dropLast.isPrefixOf urlPath) := by
  constructor
  · intro pattern hbad
    unfold validateRoutePattern
    rw [if_pos hbad]
  · intro pattern hstar hnot
    have hne : pattern ≠ [] := by
      intro h
      rw [h] at hstar
      exact List.not_mem_nil '*' hstar
    have hlast : pattern.getLast hne = '*' := by
      have hsplit : '*' ∈ pattern.dropLast ++ [pattern.getLast hne] := by
        rw [List.dropLast_append_getLast hne]
        exact hstar
      rcases List.mem_append.mp hsplit with hin | hin
      · exact absurd hin hnot
      · exact (List.mem_singleton.mp hin).symm
    have hdecomp : pattern = pattern.dropLast ++ ['*'] := by
      conv_lhs => rw [← List.dropLast_append_getLast hne]
      rw [hlast]
    constructor
    · unfold validateRoutePattern
      rw [if_neg hnot]
    · intro urlPath
      have htw : pattern.takeWhile (fun c => !(c == '*')) = pattern.dropLast := by
        conv_lhs => rw [hdecomp]
        exact takeWhile_append_marker _ hnot
      have hcont : pattern.contains '*' = true := by simp [hstar]
      unfold matchRoutePattern
      by_cases heq : urlPath = pattern
      · subst heq
        rw [if_pos rfl]
        have : urlPath.dropLast.isPrefixOf urlPath = true := by
          rw [List.isPrefixOf_iff_prefix]
          exact ⟨['*'], hdecomp.symm⟩
        rw [this]
      · rw [if_neg heq, if_pos hcont, htw]
        cases hp : pattern.dropLast.isPrefixOf urlPath <;> simp [hp]

/-- Closed instance of the C7 theorem: `/a*b` is rejected, while
`/indicators/*` validates and matches by the prefix `/indicators/`. -/
theorem validateRoutePattern_spec_witness :
    ('*' ∈ "/a*b".data.dropLast
      ∧ validateRoutePattern "/a*b".data =
          Except.error RoutePatternError.invalidRoutePattern)
    ∧ ('*' ∈ "/indicators/*".data
      ∧ '*' ∉ "/indicators/*".data.dropLast
      ∧ validateRoutePattern "/indicators/*".data = Except.ok ()
      ∧ matchRoutePattern "/indicators/123".data "/indicators/*".data =
          "/indicators/*".data.dropLast.isPrefixOf "/indicators/123".data) :=
  ⟨⟨by decide, validateRoutePattern_spec.1 _ (by decide)⟩,
    by decide, by decide,
    (validateRoutePattern_spec.2 _ (by decide) (by decide)).1,
    (validateRoutePattern_spec.2 _ (by decide) (by decide)).2 _⟩
